import Mathlib

/-!
Verification of the rectangle-overlay geometry kernel and interaction logic.

Shallow embedding of:
- src/src/utils/rectangleGeometry.ts  (geometry kernel: rotation, local/world
  transforms, corners, rotation handle, angle snapping, clamping),
- src/src/interactions/RectangleInteraction.ts  (resize / rotate / move
  handlers and the hit-test priority logic),
- src/src/components/RectangleControls.tsx  (direct width/height text edits).

JavaScript numbers are modelled as real numbers; `Math.round` is modelled as
`fun x => Int.floor (x + 1/2)` (round half toward positive infinity, exactly
JavaScript's tie-breaking rule); `parseFloat` results are modelled as
`Option Real` with `none` standing for NaN.
-/

namespace Rect

/-- RectangleState from src/src/types/rectangle.types.ts: center [x, y] in map
projection, width/height in meters, rotation angle in radians. -/
structure RectangleState where
  center : ℝ × ℝ
  width : ℝ
  height : ℝ
  angle : ℝ

/-- CornerIdentifier from src/src/types/rectangle.types.ts. -/
inductive CornerIdentifier
  | bottomLeft
  | bottomRight
  | topRight
  | topLeft
  deriving DecidableEq

/-- HandleType from src/src/types/rectangle.types.ts: corner, rotate, center. -/
inductive HandleType
  | corner
  | rotate
  | center
  deriving DecidableEq

/-- MIN_SIZE field of RectangleInteraction (10 meters). -/
def MIN_SIZE : ℝ := 10

/-- MAX_SIZE field of RectangleInteraction (100000 meters = 100 km). -/
def MAX_SIZE : ℝ := 100000

/-- rotatePoint from rectangleGeometry.ts: rotation matrix applied to a point. -/
noncomputable def rotatePoint (point : ℝ × ℝ) (angle : ℝ) : ℝ × ℝ :=
  (point.1 * Real.cos angle - point.2 * Real.sin angle,
   point.1 * Real.sin angle + point.2 * Real.cos angle)

/-- inverseRotatePoint from rectangleGeometry.ts: rotation by the negated angle. -/
noncomputable def inverseRotatePoint (point : ℝ × ℝ) (angle : ℝ) : ℝ × ℝ :=
  rotatePoint point (-angle)

/-- worldToLocal from rectangleGeometry.ts: translate to origin, then unrotate. -/
noncomputable def worldToLocal (worldCoord center : ℝ × ℝ) (angle : ℝ) : ℝ × ℝ :=
  inverseRotatePoint (worldCoord.1 - center.1, worldCoord.2 - center.2) angle

/-- localToWorld from rectangleGeometry.ts: rotate, then translate to world. -/
noncomputable def localToWorld (localCoord center : ℝ × ℝ) (angle : ℝ) : ℝ × ℝ :=
  (center.1 + (rotatePoint localCoord angle).1,
   center.2 + (rotatePoint localCoord angle).2)

/-- Return record of getCornerPositions (one world position per corner). -/
structure CornerPositions where
  bottomLeft : ℝ × ℝ
  bottomRight : ℝ × ℝ
  topRight : ℝ × ℝ
  topLeft : ℝ × ℝ

/-- getCornerPositions from rectangleGeometry.ts. -/
noncomputable def getCornerPositions (state : RectangleState) : CornerPositions :=
  let halfW := state.width / 2
  let halfH := state.height / 2
  { bottomLeft := localToWorld (-halfW, -halfH) state.center state.angle
    bottomRight := localToWorld (halfW, -halfH) state.center state.angle
    topRight := localToWorld (halfW, halfH) state.center state.angle
    topLeft := localToWorld (-halfW, halfH) state.center state.angle }

/-- getRotationHandlePosition from rectangleGeometry.ts; the offset parameter
defaults to 40 (world units). -/
noncomputable def getRotationHandlePosition (state : RectangleState)
    (offset : ℝ := 40) : ℝ × ℝ :=
  localToWorld (0, state.height / 2 + offset) state.center state.angle

/-- calculateAngle from rectangleGeometry.ts: Math.atan2(dy, dx), modelled as
the argument of the complex number dx + dy i. -/
noncomputable def calculateAngle (p q : ℝ × ℝ) : ℝ :=
  Complex.arg ⟨q.1 - p.1, q.2 - p.2⟩

/-- JavaScript Math.round: round half toward positive infinity. -/
noncomputable def jsRound (x : ℝ) : ℤ := ⌊x + 1 / 2⌋

/-- snapAngle from rectangleGeometry.ts; the increment defaults to pi/12. -/
noncomputable def snapAngle (angle : ℝ) (increment : ℝ := Real.pi / 12) : ℝ :=
  (jsRound (angle / increment) : ℝ) * increment

/-- clamp from rectangleGeometry.ts: Math.min(Math.max(value, lo), hi). -/
noncomputable def clamp (value lo hi : ℝ) : ℝ :=
  min (max value lo) hi

/-- Euclidean distance between two points, used to state the corner-symmetry
side-length property. -/
noncomputable def euclideanDist (p q : ℝ × ℝ) : ℝ :=
  Real.sqrt ((q.1 - p.1) ^ 2 + (q.2 - p.2) ^ 2)

/-- A map feature as seen by the interaction handler: the three metadata tags
read through feature.get in RectangleInteraction.ts ('handleType', 'cornerId',
'type'), each possibly absent. -/
structure MapFeature where
  handleType : Option HandleType
  cornerId : Option CornerIdentifier
  featureType : Option String
  deriving DecidableEq

/-- The forEachFeatureAtPixel loop body of getFeatureAtPixel: a feature with a
handleType tag is returned at once (the callback returns true, stopping the
search); otherwise the first feature tagged 'rectangle' is remembered and the
search continues. -/
def getFeatureAtPixelLoop : List MapFeature → Option MapFeature → Option MapFeature
  | [], foundFeature => foundFeature
  | feat :: rest, foundFeature =>
    if feat.handleType.isSome then some feat
    else if foundFeature.isNone && (feat.featureType == some "rectangle") then
      getFeatureAtPixelLoop rest (some feat)
    else
      getFeatureAtPixelLoop rest foundFeature

/-- getFeatureAtPixel from RectangleInteraction.ts, over the candidate feature
list the host map returns for the pixel. -/
def getFeatureAtPixel (features : List MapFeature) : Option MapFeature :=
  getFeatureAtPixelLoop features none

/-- handlePointerDown from RectangleInteraction.ts, reduced to the session data
it establishes: the entered mode, the dragged corner (corner mode only) and
startAngle (rotate mode only); none means the event left the machine idle. -/
noncomputable def handlePointerDown (rectangleState : RectangleState)
    (features : List MapFeature) (eventCoord : ℝ × ℝ) :
    Option (HandleType × Option CornerIdentifier × Option ℝ) :=
  match getFeatureAtPixel features with
  | none => none
  | some feature =>
    match feature.handleType with
    | some handleType =>
      some (handleType,
        if handleType = HandleType.corner then feature.cornerId else none,
        if handleType = HandleType.rotate then
          some (calculateAngle rectangleState.center eventCoord)
        else none)
    | none =>
      if feature.featureType = some "rectangle" then
        some (HandleType.center, none, none)
      else
        none

/-- handleResize from RectangleInteraction.ts: rectangleState is the current
model, startState the drag-start snapshot, currentCoord the pointer's world
position. The four switch branches of the source are kept verbatim. -/
noncomputable def handleResize (rectangleState startState : RectangleState)
    (draggedCorner : CornerIdentifier) (shiftPressed : Bool)
    (currentCoord : ℝ × ℝ) : RectangleState :=
  let localCoord := worldToLocal currentCoord startState.center startState.angle
  let dims : ℝ × ℝ :=
    match draggedCorner with
    | CornerIdentifier.bottomRight => (|localCoord.1 * 2|, |localCoord.2 * 2|)
    | CornerIdentifier.topRight => (|localCoord.1 * 2|, |localCoord.2 * 2|)
    | CornerIdentifier.topLeft => (|localCoord.1 * 2|, |localCoord.2 * 2|)
    | CornerIdentifier.bottomLeft => (|localCoord.1 * 2|, |localCoord.2 * 2|)
  let newWidth := dims.1
  let newHeight :=
    if shiftPressed then
      let aspectRatio := startState.width / startState.height
      newWidth / aspectRatio
    else dims.2
  { rectangleState with
      width := clamp newWidth MIN_SIZE MAX_SIZE
      height := clamp newHeight MIN_SIZE MAX_SIZE }

/-- handleRotate from RectangleInteraction.ts: startAngle is the angle from
center to pointer recorded at pointer-down. -/
noncomputable def handleRotate (rectangleState startState : RectangleState)
    (startAngle : ℝ) (shiftPressed : Bool) (currentCoord : ℝ × ℝ) :
    RectangleState :=
  let currentAngle := calculateAngle rectangleState.center currentCoord
  let angleDelta := currentAngle - startAngle
  let angle := startState.angle + angleDelta
  let finalAngle := if shiftPressed then snapAngle angle else angle
  { rectangleState with angle := finalAngle }

/-- handleMove from RectangleInteraction.ts: startCoord and currentCoord are
the world coordinates of the drag-start pixel and the current pixel. -/
noncomputable def handleMove (rectangleState startState : RectangleState)
    (startCoord currentCoord : ℝ × ℝ) : RectangleState :=
  let deltaCoord : ℝ × ℝ :=
    (currentCoord.1 - startCoord.1, currentCoord.2 - startCoord.2)
  let newCenter : ℝ × ℝ :=
    (startState.center.1 + deltaCoord.1, startState.center.2 + deltaCoord.2)
  { rectangleState with center := newCenter }

/-- handleWidthChange from RectangleControls.tsx; the parseFloat result is
modelled as an Option (none for NaN), the returned Option is the onChange
emission (none when the guard rejects the input and nothing is emitted). -/
noncomputable def handleWidthChange (state : RectangleState) (num : Option ℝ) :
    Option RectangleState :=
  match num with
  | some n => if 0 < n then some { state with width := n } else none
  | none => none

/-- handleHeightChange from RectangleControls.tsx, same modelling as
handleWidthChange. -/
noncomputable def handleHeightChange (state : RectangleState) (num : Option ℝ) :
    Option RectangleState :=
  match num with
  | some n => if 0 < n then some { state with height := n } else none
  | none => none

end Rect

namespace Rect

/-- C6: world/local round-trip — for every point p, center c and angle theta,
localToWorld (worldToLocal p c theta) c theta = p, exactly over the reals. -/
theorem C6_world_local_round_trip (p center : ℝ × ℝ) (angle : ℝ) :
    localToWorld (worldToLocal p center angle) center angle = p := by
  obtain ⟨px, py⟩ := p
  obtain ⟨cx, cy⟩ := center
  have h := Real.sin_sq_add_cos_sq angle
  simp only [localToWorld, worldToLocal, inverseRotatePoint, rotatePoint,
    Real.cos_neg, Real.sin_neg, Prod.mk.injEq]
  constructor
  · linear_combination (px - cx) * h
  · linear_combination (py - cy) * h

/-- C7: rotation round-trip — inverseRotatePoint (rotatePoint p theta) theta = p
for every point p and angle theta; moreover inverseRotatePoint is rotation by
the negated angle and rotatePoint is the standard rotation matrix. -/
theorem C7_rotation_round_trip :
    (∀ (p : ℝ × ℝ) (angle : ℝ), inverseRotatePoint (rotatePoint p angle) angle = p) ∧
    (∀ (q : ℝ × ℝ) (angle : ℝ), inverseRotatePoint q angle = rotatePoint q (-angle)) ∧
    (∀ (q : ℝ × ℝ) (angle : ℝ), rotatePoint q angle =
      (q.1 * Real.cos angle - q.2 * Real.sin angle,
       q.1 * Real.sin angle + q.2 * Real.cos angle)) := by
  refine ⟨?_, fun q angle => rfl, fun q angle => rfl⟩
  intro p angle
  obtain ⟨px, py⟩ := p
  have h := Real.sin_sq_add_cos_sq angle
  simp only [inverseRotatePoint, rotatePoint, Real.cos_neg, Real.sin_neg,
    Prod.mk.injEq]
  constructor
  · linear_combination px * h
  · linear_combination py * h

/-- C4: in a Moving session the emitted model translates the start center by the
pointer's world delta and leaves width, height and angle unchanged; in
particular a start center of [1000, 2000] and a drag delta of (50, -30) yields
center [1050, 1970]. -/
theorem C4_move_spec :
    (∀ (rs ss : RectangleState) (startCoord currentCoord : ℝ × ℝ),
      (handleMove rs ss startCoord currentCoord).center =
        (ss.center.1 + (currentCoord.1 - startCoord.1),
         ss.center.2 + (currentCoord.2 - startCoord.2)) ∧
      (handleMove rs ss startCoord currentCoord).width = rs.width ∧
      (handleMove rs ss startCoord currentCoord).height = rs.height ∧
      (handleMove rs ss startCoord currentCoord).angle = rs.angle) ∧
    handleMove ⟨(1000, 2000), 500, 300, 1 / 10⟩ ⟨(1000, 2000), 500, 300, 1 / 10⟩
        (200, 100) (250, 70) =
      ⟨(1050, 1970), 500, 300, 1 / 10⟩ := by
  constructor
  · intro rs ss startCoord currentCoord
    exact ⟨rfl, rfl, rfl, rfl⟩
  · simp only [handleMove, RectangleState.mk.injEq, Prod.mk.injEq]
    norm_num

/-- C10: called without an explicit offset — as createRotationHandle in the
overlay hook does — getRotationHandlePosition places the handle at
localToWorld (0, height/2 + 40) center angle, a fixed 40 world units beyond the
top-edge midpoint; the position depends only on center, height and angle,
never on width. -/
theorem C10_rotation_handle_default_offset :
    (∀ state : RectangleState,
      getRotationHandlePosition state =
        localToWorld (0, state.height / 2 + 40) state.center state.angle) ∧
    (∀ (c : ℝ × ℝ) (w1 w2 h a : ℝ),
      getRotationHandlePosition ⟨c, w1, h, a⟩ =
        getRotationHandlePosition ⟨c, w2, h, a⟩) :=
  ⟨fun _ => rfl, fun _ _ _ _ _ => rfl⟩

/-- Absolute-value normalization used when relating the source's
Math.abs(localCoord * 2) to the spec's 2 times the absolute value. -/
theorem abs_mul_two (x : ℝ) : |x * 2| = 2 * |x| := by
  rw [abs_mul, abs_two, mul_comm]

/-- C2: in a Resizing session over any dragged corner, the emitted width is
clamp (2|localX|) and the emitted height is clamp of either 2|localY| or, with
shift held, the un-clamped new width divided by the start aspect ratio; the
result is the same for all four corners, and center and angle are unchanged. -/
theorem C2_resize_spec :
    ∀ (rs ss : RectangleState) (corner : CornerIdentifier) (shift : Bool)
      (p : ℝ × ℝ),
      (handleResize rs ss corner shift p).width =
        clamp (2 * |(worldToLocal p ss.center ss.angle).1|) MIN_SIZE MAX_SIZE ∧
      (handleResize rs ss corner shift p).height =
        clamp
          (if shift then
            (2 * |(worldToLocal p ss.center ss.angle).1|) / (ss.width / ss.height)
          else
            2 * |(worldToLocal p ss.center ss.angle).2|)
          MIN_SIZE MAX_SIZE ∧
      (∀ corner2 : CornerIdentifier,
        handleResize rs ss corner2 shift p = handleResize rs ss corner shift p) ∧
      (handleResize rs ss corner shift p).center = rs.center ∧
      (handleResize rs ss corner shift p).angle = rs.angle := by
  intro rs ss corner shift p
  refine ⟨?_, ?_, ?_, ?_, ?_⟩
  · cases corner <;> simp [handleResize, abs_mul_two]
  · cases corner <;> cases shift <;> simp [handleResize, abs_mul_two]
  · intro corner2
    cases corner <;> cases corner2 <;> rfl
  · cases corner <;> rfl
  · cases corner <;> rfl

/-- snapAngle maps an integer multiple of a nonzero increment to itself. -/
theorem snapAngle_int_mul (n : ℤ) (inc : ℝ) (h : inc ≠ 0) :
    snapAngle ((n : ℝ) * inc) inc = (n : ℝ) * inc := by
  unfold snapAngle jsRound
  rw [mul_div_assoc, div_self h, mul_one]
  have hfloor : ⌊(n : ℝ) + 1 / 2⌋ = n := by
    rw [add_comm, Int.floor_add_int]
    norm_num
  rw [hfloor]

/-- C9: snapAngle is idempotent, both at the default increment pi/12 and at
every nonzero increment, and its output is always an integer multiple of the
increment. -/
theorem C9_snap_idempotent :
    (∀ angle : ℝ, snapAngle (snapAngle angle) = snapAngle angle) ∧
    (∀ (angle inc : ℝ), inc ≠ 0 →
      snapAngle (snapAngle angle inc) inc = snapAngle angle inc) ∧
    (∀ (angle inc : ℝ), ∃ n : ℤ, snapAngle angle inc = (n : ℝ) * inc) := by
  have key : ∀ (angle inc : ℝ), inc ≠ 0 →
      snapAngle (snapAngle angle inc) inc = snapAngle angle inc := by
    intro angle inc h
    exact snapAngle_int_mul (jsRound (angle / inc)) inc h
  exact ⟨fun angle => key angle _ (div_ne_zero Real.pi_ne_zero (by norm_num)),
    key, fun angle inc => ⟨jsRound (angle / inc), rfl⟩⟩

/-- C9 witness: idempotence instantiated at angle 0 and increment 1. -/
theorem C9_snap_idempotent_witness :
    (1 : ℝ) ≠ 0 ∧ snapAngle (snapAngle 0 1) 1 = snapAngle 0 1 :=
  ⟨one_ne_zero, C9_snap_idempotent.2.1 0 1 one_ne_zero⟩

/-- snapAngle at the default pi/12 increment sends 0.26 rad to pi/12. -/
theorem snapAngle_of_twentySix : snapAngle 0.26 = Real.pi / 12 := by
  unfold snapAngle jsRound
  have hpos : (0 : ℝ) < Real.pi / 12 := by positivity
  have h1 : ⌊(0.26 : ℝ) / (Real.pi / 12) + 1 / 2⌋ = 1 := by
    rw [Int.floor_eq_iff]
    constructor
    · have hlo : (1 / 2 : ℝ) ≤ 0.26 / (Real.pi / 12) := by
        rw [le_div_iff₀ hpos]
        nlinarith [Real.pi_lt_d2]
      push_cast
      linarith
    · have hhi : (0.26 : ℝ) / (Real.pi / 12) < 3 / 2 := by
        rw [div_lt_iff₀ hpos]
        nlinarith [Real.pi_gt_three]
      push_cast
      linarith
  rw [h1]
  push_cast
  ring

/-- calculateAngle from the origin to the point (cos 0.26, sin 0.26) is 0.26. -/
theorem calculateAngle_cos_sin :
    calculateAngle ((0 : ℝ), (0 : ℝ)) (Real.cos 0.26, Real.sin 0.26) = 0.26 := by
  unfold calculateAngle
  have hmem : (0.26 : ℝ) ∈ Set.Ioc (-Real.pi) Real.pi := by
    constructor
    · linarith [Real.pi_gt_three]
    · linarith [Real.pi_gt_three]
  have h2 : (⟨Real.cos 0.26 - 0, Real.sin 0.26 - 0⟩ : ℂ) =
      Complex.cos ((0.26 : ℝ) : ℂ) + Complex.sin ((0.26 : ℝ) : ℂ) * Complex.I := by
    apply Complex.ext <;> simp [Complex.cos_ofReal_re, Complex.sin_ofReal_re]
  show Complex.arg ⟨Real.cos 0.26 - 0, Real.sin 0.26 - 0⟩ = 0.26
  rw [h2]
  exact Complex.arg_cos_add_sin_mul_I hmem

/-- C3: in a Rotating session the emitted angle is the start angle plus the
pointer's angular delta, snapped to the nearest pi/12 multiple when shift is
held; center, width and height are unchanged. In particular, from angle 0 with
snap active and the pointer at angular position 0.26 rad from the center, the
resulting angle is pi/12. -/
theorem C3_rotate_spec :
    (∀ (rs ss : RectangleState) (startAngle : ℝ) (shift : Bool) (p : ℝ × ℝ),
      (handleRotate rs ss startAngle shift p).angle =
        (if shift then
          snapAngle (ss.angle + (calculateAngle rs.center p - startAngle))
        else
          ss.angle + (calculateAngle rs.center p - startAngle)) ∧
      (handleRotate rs ss startAngle shift p).center = rs.center ∧
      (handleRotate rs ss startAngle shift p).width = rs.width ∧
      (handleRotate rs ss startAngle shift p).height = rs.height) ∧
    handleRotate ⟨(0, 0), 100, 50, 0⟩ ⟨(0, 0), 100, 50, 0⟩ 0 true
        (Real.cos 0.26, Real.sin 0.26) =
      ⟨(0, 0), 100, 50, Real.pi / 12⟩ := by
  constructor
  · intro rs ss startAngle shift p
    exact ⟨rfl, rfl, rfl, rfl⟩
  · show (⟨(0, 0), 100, 50,
        if true then snapAngle (0 + (calculateAngle ((0 : ℝ), (0 : ℝ))
          (Real.cos 0.26, Real.sin 0.26) - 0)) else _⟩ : RectangleState) = _
    rw [if_pos rfl, calculateAngle_cos_sin,
      show (0 : ℝ) + (0.26 - 0) = 0.26 from by norm_num, snapAngle_of_twentySix]

/-- Explicit world coordinates of the four corner handles. -/
theorem getCornerPositions_mk (cx cy w h a : ℝ) :
    getCornerPositions ⟨(cx, cy), w, h, a⟩ =
      ⟨(cx + (-(w / 2) * Real.cos a - -(h / 2) * Real.sin a),
        cy + (-(w / 2) * Real.sin a + -(h / 2) * Real.cos a)),
       (cx + (w / 2 * Real.cos a - -(h / 2) * Real.sin a),
        cy + (w / 2 * Real.sin a + -(h / 2) * Real.cos a)),
       (cx + (w / 2 * Real.cos a - h / 2 * Real.sin a),
        cy + (w / 2 * Real.sin a + h / 2 * Real.cos a)),
       (cx + (-(w / 2) * Real.cos a - h / 2 * Real.sin a),
        cy + (-(w / 2) * Real.sin a + h / 2 * Real.cos a))⟩ := rfl

/-- Square root of a sum of squares that forms a perfect square. -/
theorem sqrt_sum_sq (x y r : ℝ) (hr : 0 ≤ r) (h : x ^ 2 + y ^ 2 = r ^ 2) :
    Real.sqrt ((x : ℝ) ^ 2 + y ^ 2) = r := by
  rw [h]
  exact Real.sqrt_sq hr

/-- C8: for every model with positive width and height, the average of the two
opposite-corner midpoints of getCornerPositions is the model center, and the
bottomLeft-bottomRight and bottomRight-topRight side lengths are the width and
the height, regardless of the angle. -/
theorem C8_corner_symmetry (state : RectangleState)
    (hw : 0 < state.width) (hh : 0 < state.height) :
    (((getCornerPositions state).bottomLeft.1 +
          (getCornerPositions state).topRight.1) / 2 +
        ((getCornerPositions state).bottomRight.1 +
          (getCornerPositions state).topLeft.1) / 2) / 2 = state.center.1 ∧
    (((getCornerPositions state).bottomLeft.2 +
          (getCornerPositions state).topRight.2) / 2 +
        ((getCornerPositions state).bottomRight.2 +
          (getCornerPositions state).topLeft.2) / 2) / 2 = state.center.2 ∧
    euclideanDist (getCornerPositions state).bottomLeft
        (getCornerPositions state).bottomRight = state.width ∧
    euclideanDist (getCornerPositions state).bottomRight
        (getCornerPositions state).topRight = state.height := by
  obtain ⟨⟨cx, cy⟩, w, h, a⟩ := state
  have hcs := Real.sin_sq_add_cos_sq a
  simp only [getCornerPositions_mk, euclideanDist]
  refine ⟨by ring, by ring, ?_, ?_⟩
  · exact sqrt_sum_sq _ _ w hw.le (by linear_combination (w : ℝ) ^ 2 * hcs)
  · exact sqrt_sum_sq _ _ h hh.le (by linear_combination (h : ℝ) ^ 2 * hcs)

/-- C8 witness: corner symmetry at the model with center (3, 4), width 2,
height 6, angle 0. -/
theorem C8_corner_symmetry_witness :
    (0 : ℝ) < (2 : ℝ) ∧ (0 : ℝ) < (6 : ℝ) ∧
    ((((getCornerPositions ⟨(3, 4), 2, 6, 0⟩).bottomLeft.1 +
          (getCornerPositions ⟨(3, 4), 2, 6, 0⟩).topRight.1) / 2 +
        ((getCornerPositions ⟨(3, 4), 2, 6, 0⟩).bottomRight.1 +
          (getCornerPositions ⟨(3, 4), 2, 6, 0⟩).topLeft.1) / 2) / 2 =
        (RectangleState.mk (3, 4) 2 6 0).center.1 ∧
      (((getCornerPositions ⟨(3, 4), 2, 6, 0⟩).bottomLeft.2 +
          (getCornerPositions ⟨(3, 4), 2, 6, 0⟩).topRight.2) / 2 +
        ((getCornerPositions ⟨(3, 4), 2, 6, 0⟩).bottomRight.2 +
          (getCornerPositions ⟨(3, 4), 2, 6, 0⟩).topLeft.2) / 2) / 2 =
        (RectangleState.mk (3, 4) 2 6 0).center.2 ∧
      euclideanDist (getCornerPositions ⟨(3, 4), 2, 6, 0⟩).bottomLeft
        (getCornerPositions ⟨(3, 4), 2, 6, 0⟩).bottomRight =
        (RectangleState.mk (3, 4) 2 6 0).width ∧
      euclideanDist (getCornerPositions ⟨(3, 4), 2, 6, 0⟩).bottomRight
        (getCornerPositions ⟨(3, 4), 2, 6, 0⟩).topRight =
        (RectangleState.mk (3, 4) 2 6 0).height) :=
  ⟨by norm_num, by norm_num,
    C8_corner_symmetry ⟨(3, 4), 2, 6, 0⟩ (by norm_num) (by norm_num)⟩

/-- Clamping into [MIN_SIZE, MAX_SIZE] always lands inside the bounds. -/
theorem clamp_size_bounds (v : ℝ) :
    MIN_SIZE ≤ clamp v MIN_SIZE MAX_SIZE ∧ clamp v MIN_SIZE MAX_SIZE ≤ MAX_SIZE := by
  unfold clamp MIN_SIZE MAX_SIZE
  exact ⟨le_min (le_max_right _ _) (by norm_num), min_le_right _ _⟩

/-- C1 counterexample: from the in-bounds model centered at (0,0) with width
and height 100, the width text input accepts the value 5 (its only guard is
positivity) and emits a model of width 5 < MIN_SIZE, so a direct external edit
does not preserve the size-bounds invariant. -/
theorem C1_size_bounds_counterexample :
    MIN_SIZE ≤ (RectangleState.mk (0, 0) 100 100 0).width ∧
    (RectangleState.mk (0, 0) 100 100 0).width ≤ MAX_SIZE ∧
    MIN_SIZE ≤ (RectangleState.mk (0, 0) 100 100 0).height ∧
    (RectangleState.mk (0, 0) 100 100 0).height ≤ MAX_SIZE ∧
    handleWidthChange ⟨(0, 0), 100, 100, 0⟩ (some 5) =
      some ⟨(0, 0), 5, 100, 0⟩ ∧
    ¬ MIN_SIZE ≤ (RectangleState.mk (0, 0) 5 100 0).width := by
  refine ⟨by norm_num [MIN_SIZE], by norm_num [MAX_SIZE], by norm_num [MIN_SIZE],
    by norm_num [MAX_SIZE], ?_, by norm_num [MIN_SIZE]⟩
  norm_num [handleWidthChange]

/-- C1 amended: the interaction machine preserves the size bounds — resize
clamps both dimensions into [MIN_SIZE, MAX_SIZE] and move and rotate leave the
dimensions untouched — but a direct external edit through the width or height
text input is accepted exactly when the parsed value is positive, replacing
the dimension with that value without any clamping. -/
theorem C1_size_bounds_amended :
    (∀ (rs ss : RectangleState) (corner : CornerIdentifier) (shift : Bool)
      (p : ℝ × ℝ),
      MIN_SIZE ≤ (handleResize rs ss corner shift p).width ∧
      (handleResize rs ss corner shift p).width ≤ MAX_SIZE ∧
      MIN_SIZE ≤ (handleResize rs ss corner shift p).height ∧
      (handleResize rs ss corner shift p).height ≤ MAX_SIZE) ∧
    (∀ (rs ss : RectangleState) (s c : ℝ × ℝ),
      (handleMove rs ss s c).width = rs.width ∧
      (handleMove rs ss s c).height = rs.height) ∧
    (∀ (rs ss : RectangleState) (sa : ℝ) (shift : Bool) (p : ℝ × ℝ),
      (handleRotate rs ss sa shift p).width = rs.width ∧
      (handleRotate rs ss sa shift p).height = rs.height) ∧
    (∀ (st : RectangleState) (n : ℝ),
      handleWidthChange st (some n) =
        if 0 < n then some { st with width := n } else none) ∧
    (∀ (st : RectangleState) (n : ℝ),
      handleHeightChange st (some n) =
        if 0 < n then some { st with height := n } else none) ∧
    (∀ st : RectangleState,
      handleWidthChange st none = none ∧ handleHeightChange st none = none) := by
  refine ⟨?_, fun rs ss s c => ⟨rfl, rfl⟩, fun rs ss sa shift p => ⟨rfl, rfl⟩,
    fun st n => rfl, fun st n => rfl, fun st => ⟨rfl, rfl⟩⟩
  intro rs ss corner shift p
  exact ⟨(clamp_size_bounds _).1, (clamp_size_bounds _).2,
    (clamp_size_bounds _).1, (clamp_size_bounds _).2⟩

/-- C5 counterexample: with the corner handle iterated before the rotation
handle, the hit-test returns the corner handle and pointer-down enters
Resizing, not Rotating — there is no rotation-over-corner priority. -/
theorem C5_priority_counterexample :
    getFeatureAtPixel
        [⟨some HandleType.corner, some CornerIdentifier.bottomLeft, none⟩,
         ⟨some HandleType.rotate, none, none⟩] =
      some ⟨some HandleType.corner, some CornerIdentifier.bottomLeft, none⟩ ∧
    Option.map (fun s => s.1)
        (handlePointerDown ⟨(0, 0), 100, 50, 0⟩
          [⟨some HandleType.corner, some CornerIdentifier.bottomLeft, none⟩,
           ⟨some HandleType.rotate, none, none⟩] (1, 0)) =
      some HandleType.corner ∧
    HandleType.corner ≠ HandleType.rotate :=
  ⟨rfl, rfl, by decide⟩

/-- The hit-test loop with a remembered rectangle-body feature returns the
first handle of the remaining candidates, else that body feature. -/
theorem getFeatureAtPixelLoop_some (fs : List MapFeature) (b : MapFeature) :
    getFeatureAtPixelLoop fs (some b) =
      ((fs.find? fun f => f.handleType.isSome).orElse fun _ => some b) := by
  induction fs with
  | nil => rfl
  | cons f rest ih =>
    by_cases hf : f.handleType.isSome = true
    · simp [getFeatureAtPixelLoop, hf, List.find?_cons_of_pos, Option.orElse]
    · rw [Bool.not_eq_true] at hf
      simp [getFeatureAtPixelLoop, hf, List.find?_cons_of_neg, Option.orElse, ih]

/-- getFeatureAtPixel returns the first handle in candidate order and only
falls back to the first rectangle-body feature when no handle is present. -/
theorem getFeatureAtPixel_eq_find (fs : List MapFeature) :
    getFeatureAtPixel fs =
      (fs.find? fun f => f.handleType.isSome).orElse
        (fun _ => fs.find? fun f => f.featureType == some "rectangle") := by
  unfold getFeatureAtPixel
  induction fs with
  | nil => rfl
  | cons f rest ih =>
    by_cases hf : f.handleType.isSome = true
    · simp [getFeatureAtPixelLoop, hf, List.find?_cons_of_pos, Option.orElse]
    · rw [Bool.not_eq_true] at hf
      by_cases hb : (f.featureType == some "rectangle") = true
      · simp [getFeatureAtPixelLoop, hf, hb, List.find?_cons_of_neg,
          List.find?_cons_of_pos, Option.orElse, getFeatureAtPixelLoop_some]
      · rw [Bool.not_eq_true] at hb
        simp [getFeatureAtPixelLoop, hf, hb, List.find?_cons_of_neg,
          Option.orElse, ih]

/-- C5 amended: hit-testing applies handle-before-body priority regardless of
candidate order — any feature carrying a handleType tag beats the rectangle
body, and among several handles the first in the host's iteration order wins
(the rotation handle beats a corner handle only when iterated first). The
matched feature determines the entered mode: rotation handle enters Rotating
and records the start angle to the pointer, a corner handle enters Resizing
recording the corner, the body enters Moving, and no match stays idle. -/
theorem C5_hit_test_amended :
    (∀ fs : List MapFeature,
      getFeatureAtPixel fs =
        (fs.find? fun f => f.handleType.isSome).orElse
          (fun _ => fs.find? fun f => f.featureType == some "rectangle")) ∧
    (∀ (fs : List MapFeature) (f : MapFeature), f ∈ fs →
      f.handleType.isSome = true →
      ∃ g, getFeatureAtPixel fs = some g ∧ g.handleType.isSome = true) ∧
    (∀ (rs : RectangleState) (fs : List MapFeature) (p : ℝ × ℝ)
      (f : MapFeature), getFeatureAtPixel fs = some f →
      (f.handleType = some HandleType.rotate →
        handlePointerDown rs fs p =
          some (HandleType.rotate, none, some (calculateAngle rs.center p))) ∧
      (f.handleType = some HandleType.corner →
        handlePointerDown rs fs p =
          some (HandleType.corner, f.cornerId, none)) ∧
      (f.handleType = none → f.featureType = some "rectangle" →
        handlePointerDown rs fs p = some (HandleType.center, none, none)) ∧
      (f.handleType = none → f.featureType ≠ some "rectangle" →
        handlePointerDown rs fs p = none)) ∧
    (∀ (rs : RectangleState) (fs : List MapFeature) (p : ℝ × ℝ),
      getFeatureAtPixel fs = none → handlePointerDown rs fs p = none) := by
  refine ⟨getFeatureAtPixel_eq_find, ?_, ?_, ?_⟩
  · intro fs f hmem hf
    rw [getFeatureAtPixel_eq_find]
    cases hfind : fs.find? (fun f => f.handleType.isSome) with
    | none =>
      rw [List.find?_eq_none] at hfind
      exact absurd hf (hfind f hmem)
    | some g =>
      exact ⟨g, by simp [Option.orElse], by simpa using List.find?_some hfind⟩
  · intro rs fs p f hfeat
    refine ⟨fun h => ?_, fun h => ?_, fun h hb => ?_, fun h hb => ?_⟩ <;>
      simp [handlePointerDown, hfeat, h]
    · exact hb
    · exact hb
  · intro rs fs p h
    simp [handlePointerDown, h]

/-- C5 amended witness: a single rotation-handle candidate is matched and
pointer-down enters Rotating, recording the angle from center to pointer. -/
theorem C5_hit_test_amended_witness :
    getFeatureAtPixel [⟨some HandleType.rotate, none, none⟩] =
      some ⟨some HandleType.rotate, none, none⟩ ∧
    (MapFeature.mk (some HandleType.rotate) none none).handleType =
      some HandleType.rotate ∧
    handlePointerDown ⟨(0, 0), 100, 50, 0⟩
        [⟨some HandleType.rotate, none, none⟩] (1, 0) =
      some (HandleType.rotate, none,
        some (calculateAngle (RectangleState.mk (0, 0) 100 50 0).center (1, 0))) :=
  ⟨rfl, rfl,
    (C5_hit_test_amended.2.2.1 ⟨(0, 0), 100, 50, 0⟩
      [⟨some HandleType.rotate, none, none⟩] (1, 0)
      ⟨some HandleType.rotate, none, none⟩ rfl).1 rfl⟩

end Rect
